import Mathlib

/-!
Verification development for the tsqllint editor-integration core.

The definitions below are shallow embeddings of the TypeScript sources:
  - `server/src/parseError.ts` (error-line parser),
  - `server/src/platform/BinaryExecutor.ts` (subprocess executor),
  - the legacy inline executor and `ValidateBuffer` in `server/src/server.ts`,
  - `server/src/TSQLLintToolsHelper.ts` (runtime acquirer),
  - `server/src/platform/PlatformAdapter.ts` (platform resolver),
  - the command registry (`server/src/commands.ts`), whose implementation file
    is absent from the snapshot and is therefore modelled from the spec and
    its unit tests.

JavaScript string operations are modelled over `List Char` with structural
recursion so that every definition evaluates by kernel reduction.
-/

namespace TSQLLint

/-- Characters matched by the JavaScript `\s` class (ASCII subset; the inputs
of this program are ASCII tool output). -/
def jsIsWhitespace (c : Char) : Bool :=
  c = ' ' || c = '\t' || c = '\n' || c = '\r' || c = '\x0b' || c = '\x0c'

/-- Split a character list at every character satisfying a predicate,
JavaScript `String.prototype.split` semantics: `"" ↦ [""]`, separators at
the ends produce empty segments. -/
def splitPredList (p : Char → Bool) : List Char → List (List Char)
  | [] => [[]]
  | c :: cs =>
    match splitPredList p cs with
    | [] => [[c]]
    | h :: t => if p c then [] :: h :: t else (c :: h) :: t

/-- Split a character list on a separator character. -/
def splitCharList (sep : Char) : List Char → List (List Char) :=
  splitPredList (fun c => c = sep)

/-- JavaScript `s.split(sep)` for a one-character separator. -/
def jsSplit (sep : Char) (s : String) : List String :=
  (splitCharList sep s.data).map String.mk

/-- JavaScript `s.trim()` (ASCII whitespace). -/
def jsTrim (s : String) : String :=
  String.mk (((s.data.dropWhile jsIsWhitespace).reverse.dropWhile jsIsWhitespace).reverse)

/-- Remove the first occurrence of a character, JavaScript
`s.replace(target, "")` for a one-character pattern (which replaces only the
first occurrence). -/
def removeFirstList (target : Char) : List Char → List Char
  | [] => []
  | c :: cs => if c = target then cs else c :: removeFirstList target cs

/-- JavaScript `s.replace(target, "")` for a one-character pattern. -/
def jsRemoveFirst (target : Char) (s : String) : String :=
  String.mk (removeFirstList target s.data)

/-- Accumulate decimal digits; `none` as soon as a non-digit appears. -/
def parseDigitsAux : List Char → Nat → Option Nat
  | [], acc => some acc
  | c :: cs, acc =>
    if c.isDigit then parseDigitsAux cs (acc * 10 + (c.toNat - '0'.toNat)) else none

/-- JavaScript `Number(s)` restricted to the values this program meets:
the empty (or all-whitespace) string is `0`, an optionally signed
decimal-integer string is that integer, and everything else is `NaN`
(`none`). Non-integer numeric syntaxes (decimals, hex, `Infinity`) are
modelled as `NaN`; like `NaN` they never occur in the tool's output lines. -/
def jsNumberInt (s : String) : Option Int :=
  match (jsTrim s).data with
  | [] => some 0
  | '-' :: rest =>
    match rest with
    | [] => none
    | _ => (parseDigitsAux rest 0).map (fun n => -(n : Int))
  | '+' :: rest =>
    match rest with
    | [] => none
    | _ => (parseDigitsAux rest 0).map (fun n => (n : Int))
  | l => (parseDigitsAux l 0).map (fun n => (n : Int))

/-- JavaScript `s.toLowerCase()` (ASCII). -/
def jsToLower (s : String) : String :=
  String.mk (s.data.map Char.toLower)

/-- Join strings with a separator, JavaScript `arr.join(sep)`. -/
def joinWith (sep : String) : List String → String
  | [] => ""
  | [x] => x
  | x :: y :: xs => x ++ sep ++ joinWith sep (y :: xs)

/-- Index of the first occurrence of a character, JavaScript `s.indexOf(c)`:
`-1` when absent. -/
def indexOfCharList (target : Char) : List Char → Int
  | [] => -1
  | c :: cs =>
    if c = target then 0
    else
      match indexOfCharList target cs with
      | -1 => -1
      | r => r + 1

/-- JavaScript `s.indexOf(c)` for a one-character needle. -/
def jsIndexOf (target : Char) (s : String) : Int :=
  indexOfCharList target s.data

/-- JavaScript `s.substring(start, stop)` for `start ≤ stop` (the only way the
program calls it). -/
def jsSubstring (s : String) (start stop : Nat) : String :=
  String.mk ((s.data.take stop).drop start)

/-! Data model of `parseError.ts`. -/

/-- LSP diagnostic severities, `vscode-languageserver` `DiagnosticSeverity`. -/
inductive DiagnosticSeverity where
  | Error
  | Warning
  | Information
  | Hint
deriving DecidableEq, Repr

/-- A zero-based text position; the line is an `Int` because the parser uses
`-1` as the invalid sentinel. -/
structure Position where
  line : Int
  character : Nat
deriving DecidableEq, Repr

/-- A text range; `stop` is the source's `end` field (a Lean keyword). -/
structure LintRange where
  start : Position
  stop : Position
deriving DecidableEq, Repr

/-- `ITsqlLintError` from `parseError.ts`. -/
structure ITsqlLintError where
  range : LintRange
  message : String
  rule : String
  severity : DiagnosticSeverity
deriving DecidableEq, Repr

/-- Length of the leading-whitespace run of a line:
`line.match(/^\s*/)?.[0]?.length ?? 0` in `parseErrors`. -/
def lineStartOf (l : String) : Nat :=
  (l.data.takeWhile jsIsWhitespace).length

/-- First component of the position header of an output line:
`parts[0]` with parentheses stripped, split on `,`, first entry through
`Number`; `none` is `NaN`. -/
def errorPosition (errorString : String) : Option Int :=
  let parts := jsSplit ':' errorString
  let positionStr := jsRemoveFirst ')' (jsRemoveFirst '(' (parts.headD ""))
  (((jsSplit ',' positionStr).map (fun v => jsNumberInt (jsTrim v))).headD none)

/-- The zero-based line of an output line:
`Number.isFinite(rawLine) ? Math.max(rawLine - 1, 0) : -1`. -/
def errorLine (errorString : String) : Int :=
  match errorPosition errorString with
  | some n => max (n - 1) 0
  | none => -1

/-- One output line to one finding, the body of `parseError` inside
`parseErrors` (`parseError.ts` lines 16–77). The `try`/`catch` fallback
branch of the source is unreachable here because every step of the
translation is total; unparsable positions already produce the `-1`
sentinel through the `Number.isFinite` check. -/
def parseError (lines : List String) (lineStarts : List Nat) (errorString : String) :
    ITsqlLintError :=
  let parts := jsSplit ':' errorString
  let line := errorLine errorString
  let colStart : Nat := if 0 ≤ line then (lineStarts[line.toNat]?).getD 0 else 0
  let colEnd : Nat :=
    if 0 ≤ line then
      match lines[line.toNat]? with
      | some l => l.length
      | none => 0
    else 0
  let range : LintRange := ⟨⟨line, colStart⟩, ⟨line, colEnd⟩⟩
  let middle := jsTrim ((parts[1]?).getD "")
  let middleTokens :=
    ((splitPredList jsIsWhitespace middle.data).map String.mk).filter (fun t => t ≠ "")
  let sevRule : DiagnosticSeverity × String :=
    match middleTokens with
    | [] => (DiagnosticSeverity.Error, middle)
    | first :: rest =>
      let fl := jsToLower first
      if fl = "warning" then (DiagnosticSeverity.Warning, joinWith " " rest)
      else if fl = "error" then (DiagnosticSeverity.Error, joinWith " " rest)
      else (DiagnosticSeverity.Error, middle)
  let msgParts := parts.drop 2
  let msgParts2 :=
    if 0 < msgParts.length ∧ jsTrim ((msgParts.getLast?).getD "") = "" then
      msgParts.dropLast
    else msgParts
  let message := jsTrim (joinWith ":" msgParts2)
  { range := range, message := message, rule := sevRule.2, severity := sevRule.1 }

/-- Validity filter: `error.range.start.line >= 0`. -/
def isValidError (e : ITsqlLintError) : Bool :=
  0 ≤ e.range.start.line

/-- `parseErrors` from `parseError.ts`: map every raw line through
`parseError` and keep only valid findings. -/
def parseErrors (docText : String) (errorStrings : List String) :
    List ITsqlLintError :=
  let lines := jsSplit '\n' docText
  let lineStarts := lines.map lineStartOf
  (errorStrings.map (parseError lines lineStarts)).filter isValidError

/-! Binary executor (`platform/BinaryExecutor.ts`) and the legacy inline
executor of the first-generation `server.ts`. A subprocess's externally
visible behaviour is the sequence of stdout data chunks followed by at most
one terminating event. -/

/-- The terminating event of a child process: a `close` with an exit code, or
an `error` event. -/
inductive TermEvent where
  | close (code : Int)
  | error (msg : String)
deriving DecidableEq, Repr

/-- One process behaviour: the stdout chunks delivered in order, then the
terminating event (`none` models a process that never closes or errors). -/
structure ProcBehavior where
  chunks : List String
  term : Option TermEvent
deriving DecidableEq, Repr

/-- How a promise settles. -/
inductive Settlement where
  | resolved (lines : List String)
  | rejected (msg : String)
deriving DecidableEq, Repr

/-- Outcome of one `execute` call: whether (and how) its promise settles, and
how many times the child process's kill routine was invoked. -/
structure ExecOutcome where
  settled : Option Settlement
  kills : Nat
deriving DecidableEq, Repr

/-- The result-line collection of the `close` handler (both generations share
it verbatim): keep every output line whose first `(` is at a non-zero index,
truncated by `substring(index, length - 1)`. -/
def collectResultLines (result : String) : List String :=
  (jsSplit '\n' result).filterMap (fun element =>
    let index := jsIndexOf '(' element
    if 0 < index then some (jsSubstring element index.toNat (element.length - 1))
    else none)

/-- `NodeBinaryExecutor.execute` (`BinaryExecutor.ts` lines 8–49) as a
function of the process behaviour. The accumulator starts at `""`; on
`close` with code 0 the promise resolves with the collected result lines,
on a non-zero code it rejects, on an `error` event it rejects with that
error. The method has no timeout parameter, no timer and never invokes
`kill`, so a process that never closes leaves the promise pending and
`kills` is 0 on every path. -/
def nodeExecute (b : ProcBehavior) : ExecOutcome :=
  let result := joinWith "" b.chunks
  match b.term with
  | some (TermEvent.close code) =>
    if code = 0 then
      { settled := some (Settlement.resolved (collectResultLines result)), kills := 0 }
    else
      { settled := some (Settlement.rejected ("Process exited with code " ++ toString code)),
        kills := 0 }
  | some (TermEvent.error msg) =>
    { settled := some (Settlement.rejected msg), kills := 0 }
  | none => { settled := none, kills := 0 }

/-- The accumulated stdout of the legacy `LintBuffer` promise
(`server.ts` lines 135–138): `let result: string;` leaves the accumulator
`undefined`, and the first `result += data` coerces it to the string
`"undefined"`; with no data at all it is still `undefined` at `close`. -/
def legacyCollected (chunks : List String) : Option String :=
  match chunks with
  | [] => none
  | _ => some ("undefined" ++ joinWith "" chunks)

/-- The legacy inline executor promise of `server.ts` (lines 109–157): the
`close` handler ignores the exit code and always resolves; with zero chunks
`result.split` throws inside the handler and the promise never settles; no
`error` listener is installed, so an `error` event also leaves the promise
unsettled. `kill` is never referenced. -/
def legacyExecute (b : ProcBehavior) : ExecOutcome :=
  match b.term with
  | some (TermEvent.close _code) =>
    match legacyCollected b.chunks with
    | some r => { settled := some (Settlement.resolved (collectResultLines r)), kills := 0 }
    | none => { settled := none, kills := 0 }
  | some (TermEvent.error _) => { settled := none, kills := 0 }
  | none => { settled := none, kills := 0 }

/-! Validation pipeline (`ValidateBuffer` in the refactored `server.ts`,
lines 337–373 of the snapshot; the legacy generation has the same control
flow with synchronous file calls). -/

/-- A published LSP diagnostic (`toDiagnostic` inside `ValidateBuffer`). -/
structure Diagnostic where
  severity : DiagnosticSeverity
  range : LintRange
  message : String
  source : String
deriving DecidableEq, Repr

/-- `toDiagnostic`: tag the message with the rule under the fixed source
label. -/
def toDiagnostic (e : ITsqlLintError) : Diagnostic :=
  { severity := e.severity, range := e.range, message := e.message,
    source := "TSQLLint: " ++ e.rule }

/-- The document snapshot consumed by `ValidateBuffer`. -/
structure TextDocumentModel where
  uri : String
  text : String
deriving DecidableEq, Repr

/-- Environment of one `ValidateBuffer` call: the outcome of the
`LintBuffer` invocation (runtime acquisition plus binary execution) and the
outcome of the fix-path `readFile` of the scratch file. -/
structure ValidateEnv where
  lintResult : Except String (List String)
  fixRead : Except String String

/-- Observable server state threaded through `ValidateBuffer`: whether the
scratch file of this call exists on disk, the command registry
(`registerFileErrors` store) and the published diagnostics per uri. -/
structure ServerState where
  scratchExists : Bool
  registry : String → Option (List ITsqlLintError)
  published : String → Option (List Diagnostic)

/-- `ValidateBuffer document shouldFix` over an explicit state: write the
scratch file; on `LintBuffer` failure register the empty finding set and
re-raise (the `catch` block — note it neither publishes diagnostics nor
deletes the scratch file); on success parse against the original document
text, register the findings, publish the diagnostics, optionally read the
fixed content back, and only then delete the scratch file (`deleteFile` is
the last step of the straight-line success path, so a failing fix-read also
skips it). -/
def ValidateBuffer (doc : TextDocumentModel) (shouldFix : Bool) (env : ValidateEnv)
    (s : ServerState) : Except String (Option String) × ServerState :=
  let s1 : ServerState := { s with scratchExists := true }
  match env.lintResult with
  | Except.error e =>
    (Except.error e,
      { s1 with registry := fun u => if u = doc.uri then some [] else s1.registry u })
  | Except.ok lintErrorStrings =>
    let errors := parseErrors doc.text lintErrorStrings
    let s2 : ServerState :=
      { s1 with
        registry := fun u => if u = doc.uri then some errors else s1.registry u,
        published := fun u =>
          if u = doc.uri then some (errors.map toDiagnostic) else s1.published u }
    if shouldFix then
      match env.fixRead with
      | Except.error e => (Except.error e, s2)
      | Except.ok content => (Except.ok (some content), { s2 with scratchExists := false })
    else
      (Except.ok none, { s2 with scratchExists := false })

/-! Runtime acquirer (`TSQLLintToolsHelper.ts`): download and extraction of
the platform archive, with the on-disk archive tracked explicitly. -/

/-- The network event seen by `DownloadRuntime`: a response (whose body is
piped into the archive file) carrying a status code, or a transport error. -/
inductive DlEvent where
  | response (statusCode : Int)
  | transportError (msg : String)
deriving DecidableEq, Repr

/-- On-disk state of the acquirer: whether `<installDir>/<platform>.tgz` is
present and whether the runtime has been extracted. -/
structure AcquireState where
  archiveOnDisk : Bool
  runtimeExtracted : Bool
deriving DecidableEq, Repr

/-- The fixed user-facing download failure message of `DownloadRuntime`. -/
def downloadFailedMsg : String :=
  "There was a problem downloading the TSQLLint Runtime. Reload VS Code to try again"

/-- `DownloadRuntime` (`TSQLLintToolsHelper.ts` lines 98–150): create the
install directory, stream the response into `<installDir>/<platform>.tgz`;
on `statusCode !== 200` delete the (partial) archive best-effort and
reject with the fixed message; on a transport `error` event delete the
partial archive best-effort and reject with that error; on a 200 response
the `finish` event resolves with the archive path, leaving the archive on
disk. -/
def DownloadRuntime (installDirectory platform : String) (ev : DlEvent)
    (s : AcquireState) : Except String String × AcquireState :=
  match ev with
  | DlEvent.response code =>
    if code = 200 then
      (Except.ok (installDirectory ++ "/" ++ platform ++ ".tgz"),
        { s with archiveOnDisk := true })
    else
      (Except.error downloadFailedMsg, { s with archiveOnDisk := false })
  | DlEvent.transportError msg =>
    (Except.error msg, { s with archiveOnDisk := false })

/-- `UnzipRuntime` (lines 187–200): decompress the archive into the install
directory and resolve with it, or reject with the decompression error. It
never touches the archive file itself. -/
def UnzipRuntime (unzip : Except String Unit) (tsqllintInstallDirectory : String)
    (s : AcquireState) : Except String String × AcquireState :=
  match unzip with
  | Except.error e => (Except.error e, s)
  | Except.ok _ => (Except.ok tsqllintInstallDirectory, { s with runtimeExtracted := true })

/-- The download-then-extract flow of `TSQLLintRuntime` for a cache miss
(`alreadyInstalled = false` is the branch where `exists` resolved false):
`DownloadRuntime` then `UnzipRuntime`; any failure propagates. When the
install directory already exists the flow returns it untouched. -/
def acquireRuntime (installDirectory platform : String) (alreadyInstalled : Bool)
    (ev : DlEvent) (unzip : Except String Unit) (s : AcquireState) :
    Except String String × AcquireState :=
  if alreadyInstalled then (Except.ok installDirectory, s)
  else
    match DownloadRuntime installDirectory platform ev s with
    | (Except.error e, s1) => (Except.error e, s1)
    | (Except.ok _path, s1) => UnzipRuntime unzip installDirectory s1

/-! Platform resolver (`platform/PlatformAdapter.ts`,
`NodePlatformAdapter.getPlatform`). -/

/-- `getPlatform` as a pure function of `os.type()` and `process.arch`:
Darwin and Linux map to their x64 tags, Windows maps on the 32-bit x86 arch
tag `ia32` to `win-x86` and otherwise to `win-x64`, and every other OS type
throws an `Unsupported platform` error carrying both raw strings. -/
def getPlatform (osType arch : String) : Except String String :=
  if osType = "Darwin" then Except.ok "osx-x64"
  else if osType = "Linux" then Except.ok "linux-x64"
  else if osType = "Windows_NT" then
    Except.ok (if arch = "ia32" then "win-x86" else "win-x64")
  else Except.error ("Unsupported platform: " ++ osType ++ ", " ++ arch)

/-! Command registry. The implementation file `server/src/commands.ts` is not
part of the snapshot (only its unit tests are), so the registry is modelled
from the spec and from the expectations and `comparePos` documentation in
`__tests__/commands.test.ts`. -/

/-- Modelled from the spec: lexicographic position comparison used by the
missing `commands.ts` overlap filter (documented in the unit tests as
`comparePos`): lines compare first, characters break ties. -/
def comparePos (a b : Position) : Int :=
  if a.line ≠ b.line then a.line - b.line else (a.character : Int) - (b.character : Int)

/-- Modelled from the spec: the overlap test of `getCommands` — a finding is
kept unless it ends before the query range starts or starts after the query
range ends, so touching boundaries count as overlapping. -/
def rangeOverlaps (e q : LintRange) : Bool :=
  !(decide (comparePos e.stop q.start < 0) || decide (comparePos e.start q.stop > 0))

/-- A text edit as carried in a command's argument array. -/
structure TextEditModel where
  range : LintRange
  newText : String
deriving DecidableEq, Repr

/-- An editor command descriptor (title, command id, edits payload). -/
structure CommandModel where
  title : String
  command : String
  edits : List TextEditModel
deriving DecidableEq, Repr

/-- Modelled from the spec: the "disable for this line" action of the missing
`commands.ts` — wrap the finding's source line between disable/enable
comments, each prefixed with the line's original leading indentation. -/
def disableLineCommand (docLines : List String) (e : ITsqlLintError) : CommandModel :=
  let lineNum := e.range.start.line.toNat
  let lineText := (docLines[lineNum]?).getD ""
  let indent := String.mk (lineText.data.takeWhile jsIsWhitespace)
  { title := "Disable: " ++ e.rule ++ " for this line",
    command := "_tsql-lint.change",
    edits := [{ range := ⟨⟨(lineNum : Int), 0⟩, ⟨(lineNum : Int), lineText.length⟩⟩,
                newText := indent ++ "/* tsqllint-disable " ++ e.rule ++ " */\n" ++
                  lineText ++ "\n" ++ indent ++ "/* tsqllint-enable " ++ e.rule ++ " */" }] }

/-- Modelled from the spec: the "disable for this file" action — insert the
disable comment at document position (0,0). -/
def disableFileCommand (e : ITsqlLintError) : CommandModel :=
  { title := "Disable: " ++ e.rule ++ " for this file",
    command := "_tsql-lint.change",
    edits := [{ range := ⟨⟨0, 0⟩, ⟨0, 0⟩⟩,
                newText := "/* tsqllint-disable " ++ e.rule ++ " */\n" }] }

/-- Modelled from the spec: the per-file command store of `commands.ts`,
keyed by uri, holding the document's lines and the last registered finding
set. -/
def CommandRegistry : Type :=
  String → Option (List String × List ITsqlLintError)

/-- Modelled from the spec: `registerFileErrors` replaces the entry for the
document's uri wholesale. -/
def registerFileErrors (uri : String) (docLines : List String)
    (errors : List ITsqlLintError) (reg : CommandRegistry) : CommandRegistry :=
  fun u => if u = uri then some (docLines, errors) else reg u

/-- Modelled from the spec: `getCommands` — empty for an unregistered uri,
otherwise two consecutive actions per stored finding whose range overlaps
the query range, in stored order. -/
def getCommands (reg : CommandRegistry) (uri : String) (queryRange : LintRange) :
    List CommandModel :=
  match reg uri with
  | none => []
  | some (docLines, errors) =>
    (errors.filter (fun e => rangeOverlaps e.range queryRange)).flatMap
      (fun e => [disableLineCommand docLines e, disableFileCommand e])

/-! Concrete fixtures used by counterexamples and witnesses. -/

/-- A sample document. -/
def docA : TextDocumentModel :=
  { uri := "file:///a.sql", text := "SELECT 1" }

/-- An environment whose binary invocation fails. -/
def envFail : ValidateEnv :=
  { lintResult := Except.error "spawn ENOENT", fixRead := Except.ok "" }

/-- An environment whose binary invocation succeeds with one finding line. -/
def envOk : ValidateEnv :=
  { lintResult := Except.ok ["(1,1): semi-colon: Expected semi-colon"],
    fixRead := Except.ok "SELECT 1;" }

/-- An environment whose fix-read fails after a successful invocation. -/
def envReadFail : ValidateEnv :=
  { lintResult := Except.ok [], fixRead := Except.error "EACCES" }

/-- A previously published diagnostic for `docA`. -/
def diagA : Diagnostic :=
  { severity := DiagnosticSeverity.Error,
    range := ⟨⟨0, 0⟩, ⟨0, 8⟩⟩, message := "old", source := "TSQLLint: semi-colon" }

/-- A server state with no scratch file, an empty registry, and one stale
published diagnostic for `docA`. -/
def sPub : ServerState :=
  { scratchExists := false,
    registry := fun _ => none,
    published := fun u => if u = "file:///a.sql" then some [diagA] else none }

/-- An empty server state. -/
def sEmpty : ServerState :=
  { scratchExists := false, registry := fun _ => none, published := fun _ => none }

/-- The boundary finding of the overlap tests: range (0,0)–(0,10). -/
def findingB : ITsqlLintError :=
  { range := ⟨⟨0, 0⟩, ⟨0, 10⟩⟩, message := "msg", rule := "test-rule",
    severity := DiagnosticSeverity.Error }

/-- The boundary query range (0,10)–(0,19), starting exactly where
`findingB` ends. -/
def queryB : LintRange :=
  ⟨⟨0, 10⟩, ⟨0, 19⟩⟩

/-- A query range strictly outside `findingB` on both sides (lines 5–9). -/
def queryFar : LintRange :=
  ⟨⟨5, 0⟩, ⟨9, 0⟩⟩

/-- A registry holding `findingB` for the test uri. -/
def regB : CommandRegistry :=
  registerFileErrors "file:///test.sql" ["SELECT * FROM users"] [findingB] (fun _ => none)

/-! Theorems settling the claims. -/

/-- C1: the claim (and the executor's own unit tests) state that `execute`
takes a timeout (default 30000 ms), forcibly terminates a process that has
not exited by the deadline with exactly one `kill`, and rejects with
`ExecutionTimeout{t}`. The code has no timeout at all: on every process
behaviour the kill routine is invoked zero times, and for a process that
never closes the call never settles instead of rejecting after the
deadline. -/
theorem c1_no_timeout_no_kill :
    (∀ b : ProcBehavior, (nodeExecute b).kills = 0) ∧
    nodeExecute { chunks := [], term := none } = { settled := none, kills := 0 } := by
  refine ⟨fun b => ?_, rfl⟩
  rcases b with ⟨chunks, term⟩
  rcases term with _ | te
  · rfl
  · rcases te with code | msg
    · unfold nodeExecute
      dsimp only
      split <;> rfl
    · rfl

/-- C8: platform resolution is a total, deterministic, side-effect-free
function of OS type and CPU architecture: Darwin maps to the macOS tag
`osx-x64`, Linux to `linux-x64`, Windows (`Windows_NT`) to `win-x86` on the
32-bit arch tag `ia32` and to `win-x64` otherwise, and every other OS fails
with an `Unsupported platform` error carrying the raw OS/arch strings. -/
theorem c8_platform_resolution (osType arch : String) :
    getPlatform "Darwin" arch = Except.ok "osx-x64" ∧
    getPlatform "Linux" arch = Except.ok "linux-x64" ∧
    getPlatform "Windows_NT" "ia32" = Except.ok "win-x86" ∧
    (arch ≠ "ia32" → getPlatform "Windows_NT" arch = Except.ok "win-x64") ∧
    (osType ≠ "Darwin" → osType ≠ "Linux" → osType ≠ "Windows_NT" →
      getPlatform osType arch =
        Except.error ("Unsupported platform: " ++ osType ++ ", " ++ arch)) := by
  refine ⟨rfl, rfl, rfl, fun h => ?_, fun h1 h2 h3 => ?_⟩
  · unfold getPlatform
    rw [if_neg (by decide), if_neg (by decide), if_pos rfl, if_neg h]
  · unfold getPlatform
    rw [if_neg h1, if_neg h2, if_neg h3]

/-- Witness for C8 at concrete inputs: Windows on a 64-bit arch resolves to
`win-x64` and an unsupported OS fails with the raw strings in the error. -/
theorem c8_platform_resolution_witness :
    getPlatform "Windows_NT" "x64" = Except.ok "win-x64" ∧
    getPlatform "SunOS" "x64" =
      Except.error ("Unsupported platform: " ++ "SunOS" ++ ", " ++ "x64") :=
  ⟨(c8_platform_resolution "SunOS" "x64").2.2.2.1 (by decide),
   (c8_platform_resolution "SunOS" "x64").2.2.2.2 (by decide) (by decide) (by decide)⟩

/-- C10 counterexample: the two executor generations disagree at the same
process behaviour. For a process that prints one well-formed finding line
and closes with code 0, the legacy collector (whose accumulator starts as
the string `undefined`) resolves with one mangled line while the refactored
executor resolves with the empty list. -/
theorem c10_counterexample :
    legacyExecute { chunks := ["(1,1): a: b\n"], term := some (TermEvent.close 0) } ≠
      nodeExecute { chunks := ["(1,1): a: b\n"], term := some (TermEvent.close 0) } := by
  decide

/-- C10 amended: the exact relationship between the generations. On a close
after at least one chunk the legacy promise resolves with the result lines
of `"undefined"` prepended to the concatenated chunks, whatever the exit
code; the refactored executor resolves with the result lines of the
concatenation only on exit code 0 and rejects on a non-zero code; on a
process `error` event the refactored executor rejects while the legacy one
never settles, and a close with no chunks at all also leaves the legacy
promise unsettled. -/
theorem c10_executor_relationship (b : ProcBehavior) :
    ((∃ code, b.term = some (TermEvent.close code)) → b.chunks ≠ [] →
      (legacyExecute b).settled =
        some (Settlement.resolved
          (collectResultLines ("undefined" ++ joinWith "" b.chunks)))) ∧
    (b.term = some (TermEvent.close 0) →
      (nodeExecute b).settled =
        some (Settlement.resolved (collectResultLines (joinWith "" b.chunks)))) ∧
    (∀ code, b.term = some (TermEvent.close code) → code ≠ 0 →
      (nodeExecute b).settled =
        some (Settlement.rejected ("Process exited with code " ++ toString code))) ∧
    (∀ msg, b.term = some (TermEvent.error msg) →
      (nodeExecute b).settled = some (Settlement.rejected msg) ∧
      (legacyExecute b).settled = none) ∧
    (b.term = some (TermEvent.close 0) → b.chunks = [] →
      (legacyExecute b).settled = none) := by
  rcases b with ⟨chunks, term⟩
  refine ⟨fun hc hne => ?_, fun h0 => ?_, fun code hc hcode => ?_,
    fun msg hm => ?_, fun h0 hnil => ?_⟩
  · rcases hc with ⟨code, hc⟩
    subst hc
    rcases chunks with _ | ⟨c, cs⟩
    · exact absurd rfl hne
    · rfl
  · subst h0
    simp [nodeExecute]
  · subst hc
    simp [nodeExecute, hcode]
  · subst hm
    exact ⟨rfl, rfl⟩
  · subst h0
    subst hnil
    rfl

/-- Witness for C10's amended statement: a process printing one matching
line and exiting with code 1 — the legacy promise resolves (with the
`undefined`-mangled line set) while the refactored executor rejects. -/
theorem c10_executor_relationship_witness :
    (legacyExecute { chunks := ["x(a)\n"], term := some (TermEvent.close 1) }).settled =
      some (Settlement.resolved (collectResultLines ("undefined" ++ joinWith "" ["x(a)\n"]))) ∧
    (nodeExecute { chunks := ["x(a)\n"], term := some (TermEvent.close 1) }).settled =
      some (Settlement.rejected ("Process exited with code " ++ toString (1 : Int))) :=
  ⟨(c10_executor_relationship _).1 ⟨1, rfl⟩ (by decide),
   (c10_executor_relationship _).2.2.1 1 rfl (by decide)⟩

/-- C2 counterexample: the claim states `validate` deletes its scratch file
on every exit path, including when the binary invocation fails. In the code
the `catch` block re-raises without any cleanup: after a failing invocation
the call returns with the scratch file still on disk. -/
theorem c2_counterexample :
    (ValidateBuffer docA false envFail sEmpty).1 = Except.error "spawn ENOENT" ∧
    (ValidateBuffer docA false envFail sEmpty).2.scratchExists = true :=
  ⟨rfl, rfl⟩

/-- C2 amended: the scratch file is deleted exactly on the successful path —
the call ends with the scratch file gone if and only if the binary
invocation succeeded and, when fixing, the fix-read succeeded; on an
executor failure or a fix-read failure the file is left behind. -/
theorem c2_scratch_lifecycle (doc : TextDocumentModel) (shouldFix : Bool)
    (env : ValidateEnv) (s : ServerState) :
    (ValidateBuffer doc shouldFix env s).2.scratchExists = false ↔
      ((∃ lines, env.lintResult = Except.ok lines) ∧
        (shouldFix = true → ∃ c, env.fixRead = Except.ok c)) := by
  rcases env with ⟨lr, fr⟩
  rcases lr with e | lines
  · simp [ValidateBuffer]
  · cases shouldFix
    · simp [ValidateBuffer]
    · rcases fr with e | c <;> simp [ValidateBuffer]

/-- Witness for C2's amended statement: a successful fix-validation run
really does end with the scratch file deleted. -/
theorem c2_scratch_lifecycle_witness :
    (ValidateBuffer docA true envOk sEmpty).2.scratchExists = false :=
  (c2_scratch_lifecycle docA true envOk sEmpty).mpr
    ⟨⟨["(1,1): semi-colon: Expected semi-colon"], rfl⟩, fun _ => ⟨"SELECT 1;", rfl⟩⟩

/-- C4 counterexample: the claim states that on executor failure the
published diagnostics for the file are cleared/reset before the failure is
re-raised. The `catch` block never publishes: after a failing invocation
the previously published (non-empty) diagnostics for the file are still in
place. -/
theorem c4_counterexample :
    (ValidateBuffer docA false envFail sPub).2.published "file:///a.sql" = some [diagA] ∧
    [diagA] ≠ ([] : List Diagnostic) :=
  ⟨rfl, by decide⟩

/-- C4 amended: on executor failure the Command Registry entry for the file
is replaced by the empty finding set before the failure is re-raised, but
no diagnostics publication happens on that path — the published diagnostics
of every file are left exactly as they were. -/
theorem c4_failure_clears_registry_only (doc : TextDocumentModel) (shouldFix : Bool)
    (env : ValidateEnv) (s : ServerState) (msg : String)
    (h : env.lintResult = Except.error msg) :
    (ValidateBuffer doc shouldFix env s).1 = Except.error msg ∧
    (ValidateBuffer doc shouldFix env s).2.registry doc.uri = some [] ∧
    (ValidateBuffer doc shouldFix env s).2.published = s.published := by
  rcases env with ⟨lr, fr⟩
  simp only at h
  subst h
  refine ⟨rfl, ?_, rfl⟩
  simp [ValidateBuffer]

/-- Witness for C4's amended statement at a concrete failing run. -/
theorem c4_failure_clears_registry_only_witness :
    (ValidateBuffer docA false envFail sPub).1 = Except.error "spawn ENOENT" ∧
    (ValidateBuffer docA false envFail sPub).2.registry "file:///a.sql" = some [] ∧
    (ValidateBuffer docA false envFail sPub).2.published = sPub.published :=
  c4_failure_clears_registry_only docA false envFail sPub "spawn ENOENT" rfl

/-- C3 counterexample: the claim states a finding whose reported line number
is negative never appears in the final output. The code clamps finite line
numbers with `Math.max(rawLine - 1, 0)`, so a reported line of `-5` becomes
the valid line 0 and survives the post-filter. -/
theorem c3_counterexample :
    (parseErrors "x" ["(-5,1): some-rule: msg"]).map (fun e => e.range.start.line) =
      [0] := by
  decide

/-- C3 amended: `parse` is total (every Lean translation step is — the
source's `catch` fallback is unreachable); a line whose position component
is unparsable as a number gets the invalid sentinel line `-1` and is removed
by the post-filter, so every finding in the final output has
`range.start.line ≥ 0`; but a *negative* (or zero) reported line number is
clamped to line 0 and does appear in the output. -/
theorem c3_filter_and_sentinel (docText : String) (errorStrings : List String) :
    (∀ e ∈ parseErrors docText errorStrings, 0 ≤ e.range.start.line) ∧
    (∀ s, errorPosition s = none →
      ∀ lines lineStarts,
        (parseError lines lineStarts s).range.start.line = -1 ∧
        isValidError (parseError lines lineStarts s) = false) := by
  constructor
  · intro e he
    simp only [parseErrors] at he
    have hv := (List.mem_filter.mp he).2
    simpa [isValidError] using hv
  · intro s hs lines lineStarts
    have hl : errorLine s = -1 := by simp [errorLine, hs]
    constructor
    · simp [parseError, hl]
    · simp [isValidError, parseError, hl]

/-- Witness for C3's amended statement: `"garbage"` has an unparsable
position, yields the sentinel, and is filtered from the output. -/
theorem c3_filter_and_sentinel_witness :
    (parseError [] [] "garbage").range.start.line = -1 ∧
    isValidError (parseError [] [] "garbage") = false ∧
    parseErrors "x" ["garbage"] = [] := by
  have h := (c3_filter_and_sentinel "x" ["garbage"]).2 "garbage" (by decide) [] []
  exact ⟨h.1, h.2, by decide⟩

/-- C5: parser round-trip on well-formed input. Against any document text
with at least 3 lines, `"(3,5): semi-colon: Expected semi-colon"` yields
exactly one finding with rule `semi-colon`, severity Error, start line 2
and message `Expected semi-colon`; and the severity-prefixed
`"(1,1): warning keyword-capitalization: msg"` yields one finding with
severity Warning and rule `keyword-capitalization`. -/
theorem c5_roundtrip (docText : String)
    (hdoc : 3 ≤ (jsSplit '\n' docText).length) :
    (∃ cs ce, parseErrors docText ["(3,5): semi-colon: Expected semi-colon"] =
      [{ range := ⟨⟨2, cs⟩, ⟨2, ce⟩⟩, message := "Expected semi-colon",
         rule := "semi-colon", severity := DiagnosticSeverity.Error }]) ∧
    (∃ cs ce, parseErrors docText ["(1,1): warning keyword-capitalization: msg"] =
      [{ range := ⟨⟨0, cs⟩, ⟨0, ce⟩⟩, message := "msg",
         rule := "keyword-capitalization", severity := DiagnosticSeverity.Warning }]) :=
  ⟨⟨_, _, rfl⟩, ⟨_, _, rfl⟩⟩

/-- Witness for C5 on the concrete three-line document `"a\nb\nc"`. -/
theorem c5_roundtrip_witness :
    (∃ cs ce, parseErrors "a\nb\nc" ["(3,5): semi-colon: Expected semi-colon"] =
      [{ range := ⟨⟨2, cs⟩, ⟨2, ce⟩⟩, message := "Expected semi-colon",
         rule := "semi-colon", severity := DiagnosticSeverity.Error }]) ∧
    (∃ cs ce, parseErrors "a\nb\nc" ["(1,1): warning keyword-capitalization: msg"] =
      [{ range := ⟨⟨0, cs⟩, ⟨0, ce⟩⟩, message := "msg",
         rule := "keyword-capitalization", severity := DiagnosticSeverity.Warning }]) :=
  c5_roundtrip "a\nb\nc" (by decide)

/-- C6 counterexample: the claim states `range.start.character` is 0 when
the referenced source line is entirely whitespace. For the document `"   "`
(one line of three spaces) the parser sets `start.character` to the length
of the leading-whitespace run, i.e. 3, not 0. -/
theorem c6_counterexample :
    (parseErrors "   " ["(1,1): r: m"]).map (fun e => e.range.start.character) =
      [3] := by
  decide

/-- C6 amended: for every finding the parser produces, start and end use the
same line; when that line index is valid (≥ 0), `start.character` is the
length of the leading-whitespace run of the referenced source line (the
index of its first non-whitespace character when one exists, the full line
length when the line is all whitespace, 0 when the line index is beyond the
document) and `stop.character` is the full length of that source line (0
beyond the document); when the line is the invalid sentinel both characters
are 0. -/
theorem c6_range_shape (lines : List String) (errorString : String) :
    (parseError lines (lines.map lineStartOf) errorString).range.start.line =
      (parseError lines (lines.map lineStartOf) errorString).range.stop.line ∧
    (0 ≤ (parseError lines (lines.map lineStartOf) errorString).range.start.line →
      (parseError lines (lines.map lineStartOf) errorString).range.start.character =
        ((lines[(parseError lines (lines.map lineStartOf)
            errorString).range.start.line.toNat]?).map lineStartOf).getD 0 ∧
      (parseError lines (lines.map lineStartOf) errorString).range.stop.character =
        ((lines[(parseError lines (lines.map lineStartOf)
            errorString).range.start.line.toNat]?).map String.length).getD 0) ∧
    ((parseError lines (lines.map lineStartOf) errorString).range.start.line < 0 →
      (parseError lines (lines.map lineStartOf) errorString).range.start.character = 0 ∧
      (parseError lines (lines.map lineStartOf) errorString).range.stop.character = 0) := by
  simp only [parseError]
  refine ⟨by trivial, fun h => ?_, fun hneg => ?_⟩
  · simp only [if_pos h, List.getElem?_map]
    cases heq : lines[(errorLine errorString).toNat]? <;> simp [heq]
  · have hn : ¬ (0 : Int) ≤ errorLine errorString := by omega
    simp only [if_neg hn]
    exact ⟨by trivial, by trivial⟩

/-- Witness for C6's amended statement on a line with two leading spaces:
start character 2 (the first non-whitespace index) and end character 3 (the
full line length). -/
theorem c6_range_shape_witness :
    (parseError ["  x"] (["  x"].map lineStartOf) "(1,1): r: m").range.start.character = 2 ∧
    (parseError ["  x"] (["  x"].map lineStartOf) "(1,1): r: m").range.stop.character = 3 := by
  have h := (c6_range_shape ["  x"] "(1,1): r: m").2.1 (by decide)
  exact ⟨h.1.trans (by decide), h.2.trans (by decide)⟩

/-- C7 counterexample: the claim states that after every terminating run of
the download/extract flow the archive is gone, being deleted after
successful extraction. On the success path (HTTP 200, extraction succeeds)
the flow resolves while `<installDir>/<platform>.tgz` is still on disk —
`UnzipRuntime` never deletes it. -/
theorem c7_counterexample :
    (acquireRuntime "install" "linux-x64" false (DlEvent.response 200) (Except.ok ())
        { archiveOnDisk := false, runtimeExtracted := false }).1 =
      Except.ok "install" ∧
    (acquireRuntime "install" "linux-x64" false (DlEvent.response 200) (Except.ok ())
        { archiveOnDisk := false, runtimeExtracted := false }).2.archiveOnDisk = true :=
  ⟨rfl, rfl⟩

/-- C7 amended: on an HTTP status other than 200, or on a transport error,
the partial archive is deleted (best-effort) before the call fails; but on
a successful download and extraction the flow resolves with the archive
still on disk — the archive is never deleted on the success path. -/
theorem c7_archive_lifecycle (installDirectory platform : String)
    (unzip : Except String Unit) (s : AcquireState) :
    (∀ code, code ≠ 200 →
      acquireRuntime installDirectory platform false (DlEvent.response code) unzip s =
        (Except.error downloadFailedMsg, { s with archiveOnDisk := false })) ∧
    (∀ msg,
      acquireRuntime installDirectory platform false (DlEvent.transportError msg) unzip s =
        (Except.error msg, { s with archiveOnDisk := false })) ∧
    (acquireRuntime installDirectory platform false (DlEvent.response 200)
        (Except.ok ()) s =
      (Except.ok installDirectory,
        { s with archiveOnDisk := true, runtimeExtracted := true })) := by
  refine ⟨fun code hcode => ?_, fun msg => ?_, ?_⟩
  · simp [acquireRuntime, DownloadRuntime, hcode]
  · simp [acquireRuntime, DownloadRuntime]
  · simp [acquireRuntime, DownloadRuntime, UnzipRuntime]

/-- Witness for C7's amended statement: a 404 deletes the partial archive
and fails, and a 200 plus successful extraction leaves the archive behind. -/
theorem c7_archive_lifecycle_witness :
    acquireRuntime "i" "p" false (DlEvent.response 404) (Except.ok ())
        { archiveOnDisk := true, runtimeExtracted := false } =
      (Except.error downloadFailedMsg,
        { archiveOnDisk := false, runtimeExtracted := false }) ∧
    acquireRuntime "i" "p" false (DlEvent.response 200) (Except.ok ())
        { archiveOnDisk := false, runtimeExtracted := false } =
      (Except.ok "i", { archiveOnDisk := true, runtimeExtracted := true }) :=
  ⟨(c7_archive_lifecycle "i" "p" (Except.ok ())
      { archiveOnDisk := true, runtimeExtracted := false }).1 404 (by decide),
   (c7_archive_lifecycle "i" "p" (Except.ok ())
      { archiveOnDisk := false, runtimeExtracted := false }).2.2⟩

/-- C9: for every finding stored for a file, its two actions are produced by
`getCommands` exactly for the findings passing the overlap filter, and a
stored finding passes the filter if and only if it is NOT entirely before
the query range nor entirely after it — so touching boundaries count as
overlapping. (`commands.ts` is absent from the snapshot; `getCommands` is
modelled from the spec and its unit tests.) -/
theorem c9_overlap_boundary (reg : CommandRegistry) (uri : String)
    (queryRange : LintRange) (docLines : List String)
    (errors : List ITsqlLintError) (e : ITsqlLintError)
    (hreg : reg uri = some (docLines, errors)) (he : e ∈ errors) :
    ((e ∈ errors.filter (fun x => rangeOverlaps x.range queryRange)) ↔
      ¬(comparePos e.range.stop queryRange.start < 0 ∨
        comparePos e.range.start queryRange.stop > 0)) ∧
    getCommands reg uri queryRange =
      (errors.filter (fun x => rangeOverlaps x.range queryRange)).flatMap
        (fun x => [disableLineCommand docLines x, disableFileCommand x]) := by
  constructor
  · rw [List.mem_filter]
    simp [he, rangeOverlaps, not_or]
  · simp [getCommands, hreg]

/-- Witness for C9 at the documented boundary instances: the finding
spanning (0,0)–(0,10) passes the filter for the query (0,10)–(0,19) whose
start touches its end, is excluded for a query strictly outside it, and
`getCommands` returns exactly the two actions of each passing finding. -/
theorem c9_overlap_boundary_witness :
    (findingB ∈ [findingB].filter (fun x => rangeOverlaps x.range queryB)) ∧
    (findingB ∉ [findingB].filter (fun x => rangeOverlaps x.range queryFar)) ∧
    getCommands regB "file:///test.sql" queryB =
      ([findingB].filter (fun x => rangeOverlaps x.range queryB)).flatMap
        (fun x => [disableLineCommand ["SELECT * FROM users"] x, disableFileCommand x]) := by
  have h1 := c9_overlap_boundary regB "file:///test.sql" queryB
    ["SELECT * FROM users"] [findingB] findingB rfl (by simp)
  have h2 := c9_overlap_boundary regB "file:///test.sql" queryFar
    ["SELECT * FROM users"] [findingB] findingB rfl (by simp)
  refine ⟨h1.1.mpr (by decide), fun hm => absurd (h2.1.mp hm) ?_, h1.2⟩
  simp only [not_not]
  decide

end TSQLLint

